import Mathlib

/-!
Verification of the filter-and-merge pipeline of `scan_bills.py`
(California Legislative Bill Scanner).

The Python script is embedded shallowly:

* A Python candidate dict is a `CandidateBill`; keys that the script reads
  with `bill.get(key, default)` or `bill[key]` may be absent, so every
  field is an `Option` (a `none` field models a missing key).
* A tracked (persisted) bill dict is a `TrackedBill`.  The script writes
  `'id': None` in `convert_to_tracker_format` and only later assigns an
  integer id, and reads ids back with `bill.get('id', 0)`, so `id` is
  `Option Nat`.
* Python's raised exceptions (`KeyError` on a missing required key) become
  `Except String`; a `.error` value is an aborted run.
* The I/O boundaries are given as explicit inputs: the prior persisted
  state is a `PriorState` value and the network fetch inside the `try:`
  block of `get_assembly_bills_from_leginfo` is an
  `Except String (List CandidateBill)` outcome.  `save_bills` performs no
  logic, so a scan records the argument of each `save_bills` call in
  `ScanOutcome.savedCalls`.
-/

/-- A candidate bill as returned by the legislative data source: a Python
dict whose keys may be absent, hence `Option` everywhere. -/
structure CandidateBill where
  bill_number : Option String
  title : Option String
  author : Option String
  summary : Option String
  committees_passed : Option (List String)
  current_committee : Option String
  status : Option String
  last_action : Option String
  url : Option String
deriving DecidableEq, Repr

/-- A tracked bill as persisted in `bills.json`.  The `id` is `Option Nat`
because `convert_to_tracker_format` first writes `None` and the script
reads ids defensively with `bill.get('id', 0)`. -/
structure TrackedBill where
  id : Option Nat
  billNumber : String
  title : String
  author : String
  committees : List String
  currentStatus : String
  analysisStatus : String
  priority : String
  dateAdded : String
  notes : String
  summary : String
  lastAction : String
  url : String
deriving DecidableEq, Repr

/-- Whether `needle` occurs at the start of `hay` (character lists). -/
def startsWithChars : List Char → List Char → Bool
  | [], _ => true
  | _ :: _, [] => false
  | a :: as, b :: bs => a == b && startsWithChars as bs

/-- Whether `needle` occurs somewhere inside the character list. -/
def containsChars (needle : List Char) : List Char → Bool
  | [] => startsWithChars needle []
  | b :: bs => startsWithChars needle (b :: bs) || containsChars needle bs

/-- Python's case-sensitive substring test `needle in hay`. -/
def strContains (hay needle : String) : Bool :=
  containsChars needle.toList hay.toList

/-- The per-bill relevance test in the loop body of
`filter_relevant_bills` (scan_bills.py lines 194-208):
`committees_passed = bill.get('committees_passed', [])`,
`current_committee = bill.get('current_committee', '')`,
`has_housing_or_judiciary = any('Housing' in c or 'Judiciary' in c ...)`,
`is_in_appropriations = 'Appropriations' in current_committee`. -/
def isRelevant (bill : CandidateBill) : Bool :=
  let committees_passed := bill.committees_passed.getD []
  let current_committee := bill.current_committee.getD ""
  let has_housing_or_judiciary := committees_passed.any fun committee =>
    strContains committee "Housing" || strContains committee "Judiciary"
  let is_in_appropriations := strContains current_committee "Appropriations"
  has_housing_or_judiciary && is_in_appropriations

/-- `filter_relevant_bills` (scan_bills.py lines 190-210): keep the bills
satisfying the relevance test, in input order. -/
def filter_relevant_bills (bills : List CandidateBill) : List CandidateBill :=
  bills.filter isRelevant

/-- `convert_to_tracker_format` (scan_bills.py lines 212-228).  A required
key that is absent raises `KeyError` in Python, modelled as `.error`; the
keys are read in the evaluation order of the dict literal.  `last_action`
and `url` are read with `.get(key, '')`. -/
def convert_to_tracker_format (today : String) (legislative_bill : CandidateBill) :
    Except String TrackedBill :=
  match legislative_bill.bill_number with
  | none => Except.error "KeyError: bill_number"
  | some billNumber =>
  match legislative_bill.title with
  | none => Except.error "KeyError: title"
  | some title =>
  match legislative_bill.author with
  | none => Except.error "KeyError: author"
  | some author =>
  match legislative_bill.committees_passed with
  | none => Except.error "KeyError: committees_passed"
  | some committees =>
  match legislative_bill.current_committee with
  | none => Except.error "KeyError: current_committee"
  | some currentStatus =>
  match legislative_bill.summary with
  | none => Except.error "KeyError: summary"
  | some summary =>
    Except.ok {
      id := none
      billNumber := billNumber
      title := title
      author := author
      committees := committees
      currentStatus := currentStatus
      analysisStatus := "needs-analysis"
      priority := "medium"
      dateAdded := today
      notes := ""
      summary := summary
      lastAction := legislative_bill.last_action.getD ""
      url := legislative_bill.url.getD "" }

/-- The new-bill loop of `scan_and_update` (scan_bills.py lines 248-252):
for each relevant candidate, read `leg_bill['bill_number']` (a missing key
raises), skip it when the number is in the fixed set of existing bill
numbers, otherwise convert it and collect it.  The set of existing numbers
is built once and never extended during the loop. -/
def buildNewBills (existing_bill_numbers : List String) (today : String) :
    List CandidateBill → Except String (List TrackedBill)
  | [] => Except.ok []
  | leg_bill :: rest =>
    match leg_bill.bill_number with
    | none => Except.error "KeyError: bill_number"
    | some bn =>
      if bn ∈ existing_bill_numbers then
        buildNewBills existing_bill_numbers today rest
      else
        match convert_to_tracker_format today leg_bill with
        | Except.error e => Except.error e
        | Except.ok tracker_bill =>
          match buildNewBills existing_bill_numbers today rest with
          | Except.error e => Except.error e
          | Except.ok tail => Except.ok (tracker_bill :: tail)

/-- `max([bill.get('id', 0) for bill in existing_bills], default=0)`
(scan_bills.py line 257). -/
def maxExistingId (existing_bills : List TrackedBill) : Nat :=
  existing_bills.foldl (fun m bill => max m (bill.id.getD 0)) 0

/-- The id-assignment loop (scan_bills.py lines 258-259):
`for i, bill in enumerate(new_bills): bill['id'] = max_id + i + 1`,
phrased with the id of the head being `startId = max_id + 1`. -/
def assignIds (startId : Nat) : List TrackedBill → List TrackedBill
  | [] => []
  | bill :: rest => { bill with id := some startId } :: assignIds (startId + 1) rest

/-- The pure merge/dedup core of `scan_and_update`
(scan_bills.py lines 236 and 247-272): build the existing-number set,
collect the new bills, then either append the id-assigned new bills
(`if new_bills:` branch, which saves `existing_bills + new_bills`) or keep
the collection unchanged (`else` branch, which saves `existing_bills`).
Returns the collection passed to `save_bills` and the newly-added count
(`self.results['new_bills']`, which stays 0 in the `else` branch). -/
def mergeStep (existing_bills : List TrackedBill) (relevant_bills : List CandidateBill)
    (today : String) : Except String (List TrackedBill × Nat) :=
  match buildNewBills (existing_bills.map TrackedBill.billNumber) today relevant_bills with
  | Except.error e => Except.error e
  | Except.ok new_bills =>
    if new_bills.isEmpty then
      Except.ok (existing_bills, 0)
    else
      Except.ok
        (existing_bills ++ assignIds (maxExistingId existing_bills + 1) new_bills,
          new_bills.length)

/-- The condition of `bills.json` when a scan starts: absent, readable
with a bill list, or unreadable/corrupt (the exception text). -/
inductive PriorState where
  | absent
  | readable (bills : List TrackedBill)
  | corrupt (msg : String)
deriving DecidableEq, Repr

/-- `load_existing_bills` (scan_bills.py lines 94-104): a readable file
yields its bills, an absent file yields `[]`, and an exception is caught,
recorded in `self.results['errors']`, and yields `[]`.  Returns the loaded
collection together with the errors appended during the call. -/
def load_existing_bills : PriorState → List TrackedBill × List String
  | PriorState.absent => ([], [])
  | PriorState.readable bills => (bills, [])
  | PriorState.corrupt msg =>
      ([], [String.append "Error loading existing bills: " msg])

/-- `get_assembly_bills_from_leginfo` (scan_bills.py lines 118-147):
`bills = []` then a `try:` block assigns the fetched batch; an exception
is caught, recorded, and the function returns the `bills` local, which is
still `[]`.  The fetch outcome inside the `try:` is the input. -/
def get_assembly_bills_from_leginfo (fetch : Except String (List CandidateBill)) :
    List CandidateBill × List String :=
  match fetch with
  | Except.ok bills => (bills, [])
  | Except.error e => ([], [String.append "Error scraping legislative data: " e])

/-- Observable outcome of one completed scan: the argument of every
`save_bills` call in order, `self.results['bills_found']`,
`self.results['new_bills']`, and `self.results['errors']`. -/
structure ScanOutcome where
  savedCalls : List (List TrackedBill)
  billsFound : Nat
  newBillsCount : Nat
  errors : List String
deriving DecidableEq, Repr

/-- `scan_and_update` (scan_bills.py lines 230-277): load, fetch, filter,
merge, save.  An uncaught `KeyError` from the new-bill loop aborts the run
(`.error`); otherwise `save_bills` is called exactly once, with
`existing_bills + new_bills` or with `existing_bills`, which is exactly
the collection returned by `mergeStep`. -/
def scan_and_update (prior : PriorState) (fetch : Except String (List CandidateBill))
    (today : String) : Except String ScanOutcome :=
  let loaded := load_existing_bills prior
  let fetched := get_assembly_bills_from_leginfo fetch
  let relevant_bills := filter_relevant_bills fetched.1
  match mergeStep loaded.1 relevant_bills today with
  | Except.error e => Except.error e
  | Except.ok merged =>
    Except.ok {
      savedCalls := [merged.1]
      billsFound := relevant_bills.length
      newBillsCount := merged.2
      errors := loaded.2 ++ fetched.2 }

/-- Sample candidate matching the spec's first filter example:
committees-passed contains "Senate Housing", currently in Senate
Appropriations. -/
def exampleHousingOk : CandidateBill := {
  bill_number := some "AB-1"
  title := some "Housing Development Streamlining Act"
  author := some "Garcia"
  summary := some "Streamlines housing development approval."
  committees_passed := some ["Senate Housing"]
  current_committee := some "Senate Appropriations"
  status := some "In Committee"
  last_action := some "2025-07-25"
  url := some "https://leginfo.example/AB1" }

/-- Sample candidate matching the spec's second filter example: only
"Senate Education" passed, so not relevant. -/
def exampleEducation : CandidateBill := {
  bill_number := some "AB-2"
  title := some "School Funding Act"
  author := some "Rodriguez"
  summary := some "Adjusts school funding."
  committees_passed := some ["Senate Education"]
  current_committee := some "Senate Appropriations"
  status := some "In Committee"
  last_action := some "2025-07-24"
  url := some "https://leginfo.example/AB2" }

/-- Sample candidate matching the spec's third filter example: passed
Senate Judiciary but currently on the Senate Floor, so not relevant. -/
def exampleFloor : CandidateBill := {
  bill_number := some "AB-3"
  title := some "Criminal Justice Reform Act"
  author := some "Thompson"
  summary := some "Reforms sentencing guidelines."
  committees_passed := some ["Senate Judiciary"]
  current_committee := some "Senate Floor"
  status := some "In Committee"
  last_action := some "2025-07-23"
  url := some "https://leginfo.example/AB3" }

/-- Sample persisted tracked bill with id 1 and bill number "AB-1234". -/
def sampleTracked : TrackedBill := {
  id := some 1
  billNumber := "AB-1234"
  title := "Housing Development Streamlining Act"
  author := "Garcia"
  committees := ["Senate Housing", "Senate Judiciary"]
  currentStatus := "Senate Appropriations"
  analysisStatus := "needs-analysis"
  priority := "medium"
  dateAdded := "2025-07-01"
  notes := ""
  summary := "Streamlines housing development approval."
  lastAction := "2025-07-25"
  url := "https://leginfo.example/AB1234" }

/-- Relevant candidate whose bill number is already tracked
(`sampleTracked`) but whose required fields title/author/summary are
missing. -/
def malformedDup : CandidateBill := {
  bill_number := some "AB-1234"
  title := none
  author := none
  summary := none
  committees_passed := some ["Senate Housing"]
  current_committee := some "Senate Appropriations"
  status := none
  last_action := none
  url := none }

/-- Relevant candidate with a fresh bill number whose required title
field is missing. -/
def malformedFresh : CandidateBill := {
  bill_number := some "AB-7777"
  title := none
  author := none
  summary := none
  committees_passed := some ["Senate Judiciary"]
  current_committee := some "Senate Appropriations"
  status := none
  last_action := none
  url := none }

/-- Candidate whose committees-passed key is missing entirely. -/
def missingCommittees : CandidateBill := {
  bill_number := some "AB-4"
  title := some "Some Act"
  author := some "Lee"
  summary := some "Some summary."
  committees_passed := none
  current_committee := some "Senate Appropriations"
  status := none
  last_action := none
  url := none }

example : strContains "Senate Housing" "Housing" = true := by decide
example : strContains "" "Appropriations" = false := by decide

/-! ### Helper lemmas about the relevance test -/

theorem isRelevant_iff (b : CandidateBill) :
    isRelevant b = true ↔
      (∃ committee ∈ b.committees_passed.getD [],
          strContains committee "Housing" = true ∨ strContains committee "Judiciary" = true) ∧
      strContains (b.current_committee.getD "") "Appropriations" = true := by
  simp [isRelevant, List.any_eq_true, Bool.or_eq_true]

theorem isRelevant_fields {c : CandidateBill} (h : isRelevant c = true) :
    c.committees_passed.isSome = true ∧ c.current_committee.isSome = true := by
  obtain ⟨⟨committee, hmem, _⟩, happ⟩ := (isRelevant_iff c).mp h
  constructor
  · cases hc : c.committees_passed with
    | none => rw [hc] at hmem; simp at hmem
    | some l => rfl
  · cases hc : c.current_committee with
    | none => rw [hc] at happ; exact absurd happ (by decide)
    | some s => rfl

/-! ### Helper lemmas about `convert_to_tracker_format` -/

theorem convert_ok_billNumber {today : String} {c : CandidateBill} {t : TrackedBill}
    (h : convert_to_tracker_format today c = Except.ok t) :
    c.bill_number = some t.billNumber := by
  obtain ⟨bn, ti, au, su, cp, cc, st, la, ur⟩ := c
  cases bn <;> cases ti <;> cases au <;> cases cp <;> cases cc <;> cases su <;>
    simp_all [convert_to_tracker_format] <;> subst h <;> rfl

theorem convert_ok_of_fields {today : String} {c : CandidateBill}
    (h1 : c.bill_number.isSome = true) (h2 : c.title.isSome = true)
    (h3 : c.author.isSome = true) (h4 : c.summary.isSome = true)
    (h5 : c.committees_passed.isSome = true) (h6 : c.current_committee.isSome = true) :
    ∃ t, convert_to_tracker_format today c = Except.ok t := by
  obtain ⟨bn, ti, au, su, cp, cc, st, la, ur⟩ := c
  cases bn <;> cases ti <;> cases au <;> cases cp <;> cases cc <;> cases su <;>
    simp_all [convert_to_tracker_format]

theorem convert_error_of_missing {today : String} {c : CandidateBill}
    (h : c.title = none ∨ c.author = none ∨ c.summary = none) :
    ∃ e, convert_to_tracker_format today c = Except.error e := by
  obtain ⟨bn, ti, au, su, cp, cc, st, la, ur⟩ := c
  cases bn <;> cases ti <;> cases au <;> cases cp <;> cases cc <;> cases su <;>
    simp_all [convert_to_tracker_format]

/-! ### Helper lemmas about the new-bill loop -/

theorem buildNewBills_spec {nums : List String} {d : String} {cs : List CandidateBill}
    {ts : List TrackedBill} (h : buildNewBills nums d cs = Except.ok ts) :
    List.Sublist (ts.map TrackedBill.billNumber) (cs.filterMap CandidateBill.bill_number) ∧
    (∀ t ∈ ts, t.billNumber ∉ nums) ∧
    (∀ c ∈ cs, ∃ bn, c.bill_number = some bn ∧
      (bn ∈ nums ∨ bn ∈ ts.map TrackedBill.billNumber)) := by
  induction cs generalizing ts with
  | nil =>
      obtain rfl : ([] : List TrackedBill) = ts := by simpa [buildNewBills] using h
      simp
  | cons c cs ih =>
      rw [buildNewBills] at h
      cases hbn : c.bill_number with
      | none => rw [hbn] at h; exact absurd h (by simp)
      | some bn =>
        simp only [hbn] at h
        by_cases hmem : bn ∈ nums
        · rw [if_pos hmem] at h
          obtain ⟨hsub, hnot, hcov⟩ := ih h
          refine ⟨?_, hnot, ?_⟩
          · rw [List.filterMap_cons_some hbn]
            exact hsub.cons bn
          · intro c' hc'
            rcases List.mem_cons.mp hc' with rfl | hc'
            · exact ⟨bn, hbn, Or.inl hmem⟩
            · exact hcov c' hc'
        · rw [if_neg hmem] at h
          cases hcv : convert_to_tracker_format d c with
          | error e => rw [hcv] at h; exact absurd h (by simp)
          | ok t =>
            rw [hcv] at h
            cases hrec : buildNewBills nums d cs with
            | error e => rw [hrec] at h; exact absurd h (by simp)
            | ok tail =>
              rw [hrec] at h
              obtain rfl : t :: tail = ts := by simpa using h
              obtain ⟨hsub, hnot, hcov⟩ := ih hrec
              have hbt : bn = t.billNumber := by
                have := convert_ok_billNumber hcv
                rw [hbn] at this
                exact Option.some.inj this
              refine ⟨?_, ?_, ?_⟩
              · rw [List.filterMap_cons_some hbn, List.map_cons, hbt]
                exact hsub.cons₂ t.billNumber
              · intro t' ht'
                rcases List.mem_cons.mp ht' with rfl | ht'
                · rw [← hbt]; exact hmem
                · exact hnot t' ht'
              · intro c' hc'
                rcases List.mem_cons.mp hc' with rfl | hc'
                · exact ⟨bn, hbn, Or.inr (by rw [hbt]; exact List.mem_cons_self _ _)⟩
                · obtain ⟨bn', hbn', hor⟩ := hcov c' hc'
                  exact ⟨bn', hbn', hor.imp id (List.mem_cons_of_mem _)⟩

theorem buildNewBills_all_existing {nums : List String} {d : String} {cs : List CandidateBill}
    (h : ∀ c ∈ cs, ∃ bn, c.bill_number = some bn ∧ bn ∈ nums) :
    buildNewBills nums d cs = Except.ok [] := by
  induction cs with
  | nil => rfl
  | cons c cs ih =>
      obtain ⟨bn, hbn, hmem⟩ := h c (List.mem_cons_self c cs)
      rw [buildNewBills]
      simp only [hbn, if_pos hmem]
      exact ih fun c' hc' => h c' (List.mem_cons_of_mem _ hc')

theorem buildNewBills_ok_of_wf {nums : List String} {d : String} {cs : List CandidateBill}
    (hrel : ∀ c ∈ cs, isRelevant c = true)
    (hwf : ∀ c ∈ cs, c.bill_number.isSome = true ∧ c.title.isSome = true ∧
      c.author.isSome = true ∧ c.summary.isSome = true) :
    ∃ ts, buildNewBills nums d cs = Except.ok ts := by
  induction cs with
  | nil => exact ⟨[], rfl⟩
  | cons c cs ih =>
      obtain ⟨hb1, hb2, hb3, hb4⟩ := hwf c (List.mem_cons_self c cs)
      obtain ⟨hb5, hb6⟩ := isRelevant_fields (hrel c (List.mem_cons_self c cs))
      obtain ⟨bn, hbn⟩ := Option.isSome_iff_exists.mp hb1
      obtain ⟨ts, hts⟩ := ih (fun c' hc' => hrel c' (List.mem_cons_of_mem _ hc'))
        (fun c' hc' => hwf c' (List.mem_cons_of_mem _ hc'))
      rw [buildNewBills]
      simp only [hbn]
      by_cases hmem : bn ∈ nums
      · rw [if_pos hmem]
        exact ⟨ts, hts⟩
      · rw [if_neg hmem]
        obtain ⟨t, ht⟩ := @convert_ok_of_fields d c hb1 hb2 hb3 hb4 hb5 hb6
        rw [ht, hts]
        exact ⟨t :: ts, rfl⟩

theorem buildNewBills_not_ok {nums : List String} {d : String} {cs : List CandidateBill}
    {cand : CandidateBill} (hmem : cand ∈ cs)
    (hbad : cand.bill_number = none ∨ cand.title = none ∨ cand.author = none ∨
      cand.summary = none)
    (hnew : ∀ bn, cand.bill_number = some bn → bn ∉ nums) :
    ∃ e, buildNewBills nums d cs = Except.error e := by
  induction cs with
  | nil => cases hmem
  | cons c cs ih =>
      rcases List.mem_cons.mp hmem with rfl | hmem'
      · rw [buildNewBills]
        cases hbn : cand.bill_number with
        | none => simp only [hbn]; exact ⟨_, rfl⟩
        | some bn =>
          simp only [hbn, if_neg (hnew bn hbn)]
          have hbad' : cand.title = none ∨ cand.author = none ∨ cand.summary = none := by
            rcases hbad with hb | hb
            · rw [hbn] at hb; cases hb
            · exact hb
          obtain ⟨e, he⟩ := @convert_error_of_missing d cand hbad'
          rw [he]
          exact ⟨e, rfl⟩
      · rw [buildNewBills]
        cases hbn : c.bill_number with
        | none => simp only [hbn]; exact ⟨_, rfl⟩
        | some bn =>
          simp only [hbn]
          by_cases hin : bn ∈ nums
          · rw [if_pos hin]
            exact ih hmem'
          · rw [if_neg hin]
            cases hcv : convert_to_tracker_format d c with
            | error e => exact ⟨e, rfl⟩
            | ok t =>
              obtain ⟨e, he⟩ := ih hmem'
              rw [he]
              exact ⟨e, rfl⟩

/-! ### Helper lemmas about `assignIds` and `maxExistingId` -/

theorem assignIds_map_billNumber (k : Nat) (ts : List TrackedBill) :
    (assignIds k ts).map TrackedBill.billNumber = ts.map TrackedBill.billNumber := by
  induction ts generalizing k with
  | nil => rfl
  | cons t ts ih => simp [assignIds, ih]

theorem assignIds_length (k : Nat) (ts : List TrackedBill) :
    (assignIds k ts).length = ts.length := by
  induction ts generalizing k with
  | nil => rfl
  | cons t ts ih => simp [assignIds, ih]

theorem assignIds_map_id (k : Nat) (ts : List TrackedBill) :
    (assignIds k ts).map TrackedBill.id = (List.range' k ts.length).map some := by
  induction ts generalizing k with
  | nil => rfl
  | cons t ts ih => simp [assignIds, ih, List.range'_succ]

theorem assignIds_id_ge (k : Nat) (ts : List TrackedBill) :
    ∀ b ∈ assignIds k ts, k ≤ b.id.getD 0 := by
  induction ts generalizing k with
  | nil => intro b hb; cases hb
  | cons t ts ih =>
      intro b hb
      rcases List.mem_cons.mp hb with rfl | hb
      · simp
      · exact le_trans (Nat.le_succ k) (ih (k + 1) b hb)

theorem assignIds_pairwise_lt (k : Nat) (ts : List TrackedBill) :
    List.Pairwise (fun a b => a.id.getD 0 < b.id.getD 0) (assignIds k ts) := by
  induction ts generalizing k with
  | nil => exact List.Pairwise.nil
  | cons t ts ih =>
      refine List.Pairwise.cons ?_ (ih (k + 1))
      intro b hb
      have hk := assignIds_id_ge (k + 1) ts b hb
      simp only [Option.getD_some]
      exact lt_of_lt_of_le (Nat.lt_succ_self k) hk

theorem foldl_max_init (f : TrackedBill → Nat) :
    ∀ (l : List TrackedBill) (a : Nat), a ≤ l.foldl (fun m b => max m (f b)) a
  | [], a => le_refl a
  | b :: l, a => le_trans (le_max_left a (f b)) (foldl_max_init f l (max a (f b)))

theorem foldl_max_mem (f : TrackedBill → Nat) :
    ∀ (l : List TrackedBill) (a : Nat) (b : TrackedBill),
      b ∈ l → f b ≤ l.foldl (fun m x => max m (f x)) a := by
  intro l
  induction l with
  | nil => intro a b hb; cases hb
  | cons x l ih =>
      intro a b hb
      rcases List.mem_cons.mp hb with rfl | hb
      · exact le_trans (le_max_right a (f b)) (foldl_max_init f l (max a (f b)))
      · exact ih (max a (f x)) b hb

theorem maxExistingId_ge {existing : List TrackedBill} {b : TrackedBill} (hb : b ∈ existing) :
    b.id.getD 0 ≤ maxExistingId existing :=
  foldl_max_mem (fun x => x.id.getD 0) existing 0 b hb

theorem foldl_max_attained (f : TrackedBill → Nat) :
    ∀ (l : List TrackedBill) (a : Nat),
      l.foldl (fun m x => max m (f x)) a = a ∨
        ∃ b ∈ l, f b = l.foldl (fun m x => max m (f x)) a := by
  intro l
  induction l with
  | nil => intro a; exact Or.inl rfl
  | cons x l ih =>
      intro a
      rcases ih (max a (f x)) with h | ⟨b, hb, hfb⟩
      · rcases max_choice a (f x) with hm | hm
        · exact Or.inl (by rw [List.foldl_cons, h, hm])
        · refine Or.inr ⟨x, List.mem_cons_self x l, ?_⟩
          rw [List.foldl_cons, h, hm]
      · exact Or.inr ⟨b, List.mem_cons_of_mem x hb, hfb⟩

theorem maxExistingId_attained (existing : List TrackedBill) :
    maxExistingId existing = 0 ∨ ∃ b ∈ existing, b.id.getD 0 = maxExistingId existing :=
  foldl_max_attained (fun x => x.id.getD 0) existing 0

/-! ### Characterization of `mergeStep` and `scan_and_update` -/

theorem mergeStep_ok {existing : List TrackedBill} {cs : List CandidateBill} {d : String}
    {res : List TrackedBill} {n : Nat}
    (h : mergeStep existing cs d = Except.ok (res, n)) :
    ∃ ts, buildNewBills (existing.map TrackedBill.billNumber) d cs = Except.ok ts ∧
      res = existing ++ assignIds (maxExistingId existing + 1) ts ∧ n = ts.length := by
  unfold mergeStep at h
  cases hb : buildNewBills (existing.map TrackedBill.billNumber) d cs with
  | error e => rw [hb] at h; exact absurd h (by simp)
  | ok ts =>
      rw [hb] at h
      cases ts with
      | nil =>
          simp only [List.isEmpty_nil, if_true] at h
          obtain ⟨rfl, rfl⟩ : existing = res ∧ 0 = n := by simpa using h
          exact ⟨[], rfl, by simp [assignIds], rfl⟩
      | cons t ts' =>
          simp only [List.isEmpty_cons, if_false, Bool.false_eq_true] at h
          obtain ⟨h1, h2⟩ : existing ++ assignIds (maxExistingId existing + 1) (t :: ts') = res ∧
              (t :: ts').length = n := by simpa using h
          exact ⟨t :: ts', rfl, h1.symm, h2.symm⟩

theorem mergeStep_of_build {existing : List TrackedBill} {cs : List CandidateBill} {d : String}
    {ts : List TrackedBill}
    (h : buildNewBills (existing.map TrackedBill.billNumber) d cs = Except.ok ts) :
    mergeStep existing cs d = Except.ok
      (if ts.isEmpty then (existing, 0)
        else (existing ++ assignIds (maxExistingId existing + 1) ts, ts.length)) := by
  unfold mergeStep
  rw [h]
  cases ts with
  | nil => simp
  | cons t ts' => simp

theorem scan_and_update_eq_ok {prior : PriorState} {fetch : Except String (List CandidateBill)}
    {today : String} {res : List TrackedBill} {n : Nat}
    (h : mergeStep (load_existing_bills prior).1
      (filter_relevant_bills (get_assembly_bills_from_leginfo fetch).1) today =
        Except.ok (res, n)) :
    scan_and_update prior fetch today = Except.ok {
      savedCalls := [res]
      billsFound := (filter_relevant_bills (get_assembly_bills_from_leginfo fetch).1).length
      newBillsCount := n
      errors := (load_existing_bills prior).2 ++ (get_assembly_bills_from_leginfo fetch).2 } := by
  simp only [scan_and_update]
  rw [h]

theorem scan_and_update_eq_error {prior : PriorState}
    {fetch : Except String (List CandidateBill)} {today : String} {e : String}
    (h : mergeStep (load_existing_bills prior).1
      (filter_relevant_bills (get_assembly_bills_from_leginfo fetch).1) today =
        Except.error e) :
    scan_and_update prior fetch today = Except.error e := by
  simp only [scan_and_update]
  rw [h]

/-! ### Claim theorems -/

/-- C1: the relevance filter keeps a candidate if and only if (a) at
least one entry of its committees-passed list contains the substring
"Housing" or the substring "Judiciary" (case-sensitive) and (b) its
current-committee field contains the substring "Appropriations"; in
particular a candidate with an empty committees-passed list is excluded. -/
theorem C1_filter_relevant_iff (bills : List CandidateBill) (b : CandidateBill) :
    (b ∈ filter_relevant_bills bills ↔
      b ∈ bills ∧
        (∃ committee ∈ b.committees_passed.getD [],
            strContains committee "Housing" = true ∨
              strContains committee "Judiciary" = true) ∧
        strContains (b.current_committee.getD "") "Appropriations" = true) ∧
    (b.committees_passed = some [] → b ∉ filter_relevant_bills bills) := by
  have hmain : b ∈ filter_relevant_bills bills ↔
      b ∈ bills ∧
        (∃ committee ∈ b.committees_passed.getD [],
            strContains committee "Housing" = true ∨
              strContains committee "Judiciary" = true) ∧
        strContains (b.current_committee.getD "") "Appropriations" = true := by
    rw [filter_relevant_bills, List.mem_filter, isRelevant_iff]
  refine ⟨hmain, ?_⟩
  intro hemp hmem
  obtain ⟨-, ⟨committee, hc, -⟩, -⟩ := hmain.mp hmem
  rw [hemp] at hc
  simp at hc

/-- Witness for C1 at the three examples given in the spec. -/
theorem C1_filter_relevant_iff_witness :
    exampleHousingOk ∈
      filter_relevant_bills [exampleHousingOk, exampleEducation, exampleFloor] ∧
    exampleEducation ∉
      filter_relevant_bills [exampleHousingOk, exampleEducation, exampleFloor] ∧
    exampleFloor ∉
      filter_relevant_bills [exampleHousingOk, exampleEducation, exampleFloor] := by
  refine ⟨?_, ?_, ?_⟩
  · exact (C1_filter_relevant_iff _ exampleHousingOk).1.mpr
      ⟨by decide, ⟨"Senate Housing", by decide, Or.inl (by decide)⟩, by decide⟩
  · intro hmem
    exact absurd ((C1_filter_relevant_iff _ exampleEducation).1.mp hmem).2 (by decide)
  · intro hmem
    exact absurd ((C1_filter_relevant_iff _ exampleFloor).1.mp hmem).2 (by decide)

/-- C10: for a candidate missing the committees-passed key or the
current-committee key, the filter treats the missing field as an empty
list or empty string respectively and excludes the candidate without any
error: the relevance test is false, the candidate is never kept, and the
test coincides with the test on the defaulted record. -/
theorem C10_missing_keys_nonrelevant (c : CandidateBill) (bills : List CandidateBill)
    (h : c.committees_passed = none ∨ c.current_committee = none) :
    isRelevant c = false ∧
    c ∉ filter_relevant_bills bills ∧
    isRelevant c = isRelevant { c with
      committees_passed := some (c.committees_passed.getD [])
      current_committee := some (c.current_committee.getD "") } := by
  have hfalse : isRelevant c = false := by
    rcases h with h | h
    · simp [isRelevant, h]
    · have hs : strContains "" "Appropriations" = false := by decide
      simp [isRelevant, h, hs]
  refine ⟨hfalse, ?_, rfl⟩
  intro hmemf
  have htrue := (List.mem_filter.mp hmemf).2
  rw [hfalse] at htrue
  exact absurd htrue (by decide)

/-- Witness for C10 at a candidate with no committees-passed key. -/
theorem C10_missing_keys_nonrelevant_witness :
    isRelevant missingCommittees = false ∧
    missingCommittees ∉ filter_relevant_bills [missingCommittees] :=
  ⟨(C10_missing_keys_nonrelevant missingCommittees [missingCommittees] (Or.inl rfl)).1,
    (C10_missing_keys_nonrelevant missingCommittees [missingCommittees] (Or.inl rfl)).2.1⟩

/-- C2 counterexample: the claim quantifies over every sequence of
relevant candidates, but the set of existing bill numbers is built once
(scan_bills.py line 236) and never extended during the new-bill loop, so
starting from the empty collection (which trivially has unique bill
numbers and unique ids) and merging a sequence that repeats one relevant
candidate admits it twice: the result has a duplicated bill number. -/
theorem C2_counterexample :
    (([] : List TrackedBill).map TrackedBill.billNumber).Nodup ∧
    (([] : List TrackedBill).map TrackedBill.id).Nodup ∧
    ∃ res n, mergeStep [] [exampleHousingOk, exampleHousingOk] "2025-08-01" =
        Except.ok (res, n) ∧
      ¬ (res.map TrackedBill.billNumber).Nodup := by
  refine ⟨by decide, by decide, ?_⟩
  refine ⟨_, _, rfl, ?_⟩
  decide

/-- C2 (amended): for every run of the merge engine starting from a
collection with unique bill numbers and unique surrogate ids, and for
every sequence of relevant candidates in which no two candidates carry
the same bill number, the resulting collection has no two Tracked Bills
with the same bill number and no two with the same surrogate id. -/
theorem C2_amended_uniqueness {existing : List TrackedBill} {cands : List CandidateBill}
    {d : String} {res : List TrackedBill} {n : Nat}
    (hnum : (existing.map TrackedBill.billNumber).Nodup)
    (hid : (existing.map TrackedBill.id).Nodup)
    (hcand : (cands.filterMap CandidateBill.bill_number).Nodup)
    (hrun : mergeStep existing cands d = Except.ok (res, n)) :
    (res.map TrackedBill.billNumber).Nodup ∧ (res.map TrackedBill.id).Nodup := by
  obtain ⟨ts, hbuild, rfl, rfl⟩ := mergeStep_ok hrun
  obtain ⟨hsub, hnot, -⟩ := buildNewBills_spec hbuild
  constructor
  · rw [List.map_append, assignIds_map_billNumber, List.nodup_append]
    refine ⟨hnum, hcand.sublist hsub, ?_⟩
    intro a ha hat
    obtain ⟨t, ht, rfl⟩ := List.mem_map.mp hat
    exact hnot t ht ha
  · rw [List.map_append, assignIds_map_id, List.nodup_append]
    refine ⟨hid, (List.nodup_range' _ _ 1 Nat.one_pos).map (Option.some_injective Nat), ?_⟩
    intro a ha hat
    obtain ⟨j, hj, rfl⟩ := List.mem_map.mp hat
    obtain ⟨b, hbmem, hb⟩ := List.mem_map.mp ha
    have hle : j ≤ maxExistingId existing := by
      have hg := maxExistingId_ge hbmem
      rw [hb] at hg
      simpa using hg
    have hgt : maxExistingId existing + 1 ≤ j := (List.mem_range'_1.mp hj).1
    omega

/-- Witness for the amended C2 at a concrete run admitting two bills. -/
theorem C2_amended_uniqueness_witness :
    ∃ res n, mergeStep [sampleTracked] [exampleHousingOk, exampleEducation] "2025-08-08" =
        Except.ok (res, n) ∧
      (res.map TrackedBill.billNumber).Nodup ∧ (res.map TrackedBill.id).Nodup := by
  refine ⟨_, _, rfl, ?_⟩
  exact @C2_amended_uniqueness [sampleTracked] [exampleHousingOk, exampleEducation]
    "2025-08-08" _ _ (by decide) (by decide) (by decide) rfl

/-- C3: the merge engine computes `max_id` as the maximum existing
surrogate id (0 when the collection is empty) and assigns ids to the
admitted bills sequentially starting at `max_id + 1` in admission order,
so the new ids are strictly increasing and every one exceeds every
pre-existing id. -/
theorem C3_monotonic_ids {existing : List TrackedBill} {cands : List CandidateBill}
    {d : String} {res : List TrackedBill} {n : Nat}
    (hrun : mergeStep existing cands d = Except.ok (res, n)) :
    (∀ b ∈ existing, b.id.getD 0 ≤ maxExistingId existing) ∧
    (maxExistingId existing = 0 ∨ ∃ b ∈ existing, b.id.getD 0 = maxExistingId existing) ∧
    (existing = [] → maxExistingId existing = 0) ∧
    ∃ admitted, res = existing ++ admitted ∧ admitted.length = n ∧
      admitted.map TrackedBill.id =
        (List.range' (maxExistingId existing + 1) n).map some ∧
      List.Pairwise (fun a b => a.id.getD 0 < b.id.getD 0) admitted ∧
      ∀ b ∈ existing, ∀ a ∈ admitted, b.id.getD 0 < a.id.getD 0 := by
  obtain ⟨ts, hbuild, rfl, rfl⟩ := mergeStep_ok hrun
  refine ⟨fun b hb => maxExistingId_ge hb, maxExistingId_attained existing,
    fun he => by rw [he]; rfl,
    assignIds (maxExistingId existing + 1) ts, rfl, assignIds_length _ _,
    by rw [assignIds_map_id], assignIds_pairwise_lt _ _, ?_⟩
  intro b hb a ha
  have h1 := maxExistingId_ge hb
  have h2 := assignIds_id_ge _ _ a ha
  omega

/-- Witness for C3 at a concrete run. -/
theorem C3_monotonic_ids_witness :
    ∃ res n, mergeStep [sampleTracked] [exampleFloor] "2025-08-01" = Except.ok (res, n) ∧
      ∃ admitted, res = [sampleTracked] ++ admitted ∧ admitted.length = n ∧
        admitted.map TrackedBill.id =
          (List.range' (maxExistingId [sampleTracked] + 1) n).map some ∧
        List.Pairwise (fun a b => a.id.getD 0 < b.id.getD 0) admitted ∧
        ∀ b ∈ [sampleTracked], ∀ a ∈ admitted, b.id.getD 0 < a.id.getD 0 := by
  refine ⟨_, _, rfl, ?_⟩
  exact (@C3_monotonic_ids [sampleTracked] [exampleFloor] "2025-08-01" _ _ rfl).2.2.2

/-- C4: the result collection is exactly the existing collection
concatenated with the admitted bills: the pre-existing prefix is
unchanged record-for-record (hence notes, priority and analysisStatus
are preserved), no pre-existing bill is removed, and no admitted bill
re-uses an existing bill number. -/
theorem C4_frame {existing : List TrackedBill} {cands : List CandidateBill}
    {d : String} {res : List TrackedBill} {n : Nat}
    (hrun : mergeStep existing cands d = Except.ok (res, n)) :
    ∃ admitted, res = existing ++ admitted ∧
      res.take existing.length = existing ∧
      (∀ b ∈ existing, b ∈ res) ∧
      (res.take existing.length).map TrackedBill.notes = existing.map TrackedBill.notes ∧
      (res.take existing.length).map TrackedBill.priority =
        existing.map TrackedBill.priority ∧
      (res.take existing.length).map TrackedBill.analysisStatus =
        existing.map TrackedBill.analysisStatus ∧
      ∀ a ∈ admitted, a.billNumber ∉ existing.map TrackedBill.billNumber := by
  obtain ⟨ts, hbuild, rfl, rfl⟩ := mergeStep_ok hrun
  obtain ⟨-, hnot, -⟩ := buildNewBills_spec hbuild
  have htake : (existing ++ assignIds (maxExistingId existing + 1) ts).take existing.length =
      existing := List.take_left _ _
  refine ⟨_, rfl, htake, fun b hb => List.mem_append_left _ hb,
    by rw [htake], by rw [htake], by rw [htake], ?_⟩
  intro a ha
  have hmapmem : a.billNumber ∈
      (assignIds (maxExistingId existing + 1) ts).map TrackedBill.billNumber :=
    List.mem_map_of_mem _ ha
  rw [assignIds_map_billNumber] at hmapmem
  obtain ⟨t, ht, htb⟩ := List.mem_map.mp hmapmem
  rw [← htb]
  exact hnot t ht

/-- Witness for C4 at a concrete run. -/
theorem C4_frame_witness :
    ∃ res n, mergeStep [sampleTracked] [exampleEducation] "2025-08-02" = Except.ok (res, n) ∧
      ∃ admitted, res = [sampleTracked] ++ admitted ∧
        res.take ([sampleTracked] : List TrackedBill).length = [sampleTracked] ∧
        (∀ b ∈ ([sampleTracked] : List TrackedBill), b ∈ res) ∧
        ∀ a ∈ admitted,
          a.billNumber ∉ ([sampleTracked] : List TrackedBill).map TrackedBill.billNumber := by
  refine ⟨_, _, rfl, ?_⟩
  obtain ⟨admitted, h1, h2, h3, -, -, -, h7⟩ :=
    @C4_frame [sampleTracked] [exampleEducation] "2025-08-02" _ _ rfl
  exact ⟨admitted, h1, h2, h3, h7⟩

/-- C5: running the merge engine a second time with the same candidate
sequence, starting from the first run's output, admits zero new bills
and leaves the collection unchanged. -/
theorem C5_idempotent {existing : List TrackedBill} {cands : List CandidateBill}
    {d d' : String} {res : List TrackedBill} {n : Nat}
    (hrun : mergeStep existing cands d = Except.ok (res, n)) :
    mergeStep res cands d' = Except.ok (res, 0) := by
  obtain ⟨ts, hbuild, rfl, rfl⟩ := mergeStep_ok hrun
  obtain ⟨-, -, hcov⟩ := buildNewBills_spec hbuild
  have hempty : buildNewBills
      ((existing ++ assignIds (maxExistingId existing + 1) ts).map TrackedBill.billNumber)
      d' cands = Except.ok [] := by
    apply buildNewBills_all_existing
    intro c hc
    obtain ⟨bn, hbn, hor⟩ := hcov c hc
    refine ⟨bn, hbn, ?_⟩
    rw [List.map_append, assignIds_map_billNumber]
    rcases hor with h | h
    · exact List.mem_append_left _ h
    · exact List.mem_append_right _ h
  have hm := mergeStep_of_build hempty
  simpa using hm

/-- Witness for C5 at a concrete run. -/
theorem C5_idempotent_witness :
    ∃ res n, mergeStep [sampleTracked] [exampleFloor, exampleEducation] "2025-08-03" =
        Except.ok (res, n) ∧
      mergeStep res [exampleFloor, exampleEducation] "2025-08-04" = Except.ok (res, 0) := by
  refine ⟨_, _, rfl, ?_⟩
  exact @C5_idempotent [sampleTracked] [exampleFloor, exampleEducation]
    "2025-08-03" "2025-08-04" _ _ rfl

/-- C6: in every scan in which no candidate is missing a required field,
the scan completes and the persister (`save_bills`) is invoked exactly
once; when zero new bills were admitted it is called with the unchanged
existing collection. -/
theorem C6_persister_called_once {prior : PriorState}
    {fetch : Except String (List CandidateBill)} {today : String}
    (hwf : ∀ c ∈ (get_assembly_bills_from_leginfo fetch).1,
      c.bill_number.isSome = true ∧ c.title.isSome = true ∧
      c.author.isSome = true ∧ c.summary.isSome = true) :
    ∃ out, scan_and_update prior fetch today = Except.ok out ∧
      out.savedCalls.length = 1 ∧
      (out.newBillsCount = 0 → out.savedCalls = [(load_existing_bills prior).1]) := by
  have hrel : ∀ c ∈ filter_relevant_bills (get_assembly_bills_from_leginfo fetch).1,
      isRelevant c = true := fun c hc => (List.mem_filter.mp hc).2
  have hwf' : ∀ c ∈ filter_relevant_bills (get_assembly_bills_from_leginfo fetch).1,
      c.bill_number.isSome = true ∧ c.title.isSome = true ∧
      c.author.isSome = true ∧ c.summary.isSome = true :=
    fun c hc => hwf c (List.mem_filter.mp hc).1
  obtain ⟨ts, hts⟩ := @buildNewBills_ok_of_wf
    ((load_existing_bills prior).1.map TrackedBill.billNumber) today
    (filter_relevant_bills (get_assembly_bills_from_leginfo fetch).1) hrel hwf'
  have hm := mergeStep_of_build hts
  cases ts with
  | nil =>
      have hm' : mergeStep (load_existing_bills prior).1
          (filter_relevant_bills (get_assembly_bills_from_leginfo fetch).1) today =
          Except.ok ((load_existing_bills prior).1, 0) := by simpa using hm
      exact ⟨_, scan_and_update_eq_ok hm', rfl, fun _ => rfl⟩
  | cons t ts' =>
      have hm' : mergeStep (load_existing_bills prior).1
          (filter_relevant_bills (get_assembly_bills_from_leginfo fetch).1) today =
          Except.ok ((load_existing_bills prior).1 ++
            assignIds (maxExistingId (load_existing_bills prior).1 + 1) (t :: ts'),
            (t :: ts').length) := by simpa using hm
      refine ⟨_, scan_and_update_eq_ok hm', rfl, ?_⟩
      intro h0
      exact absurd h0 (by simp)

/-- Witness for C6 at a concrete scan admitting one bill. -/
theorem C6_persister_called_once_witness :
    ∃ out, scan_and_update (PriorState.readable [sampleTracked])
        (Except.ok [exampleHousingOk]) "2025-08-05" = Except.ok out ∧
      out.savedCalls.length = 1 ∧
      (out.newBillsCount = 0 →
        out.savedCalls = [(load_existing_bills (PriorState.readable [sampleTracked])).1]) :=
  C6_persister_called_once (by decide)

/-- C7: the loader returns the persisted collection when it is readable,
and otherwise (absent or corrupt prior state) the empty collection; a
corrupt prior state is recorded as a non-fatal error and the scan still
completes. -/
theorem C7_loader (p : PriorState) :
    (∀ bills, p = PriorState.readable bills → load_existing_bills p = (bills, [])) ∧
    (p = PriorState.absent → load_existing_bills p = ([], [])) ∧
    (∀ m, p = PriorState.corrupt m →
      load_existing_bills p = ([], [String.append "Error loading existing bills: " m]) ∧
      ∀ d, ∃ out, scan_and_update p (Except.ok []) d = Except.ok out ∧
        String.append "Error loading existing bills: " m ∈ out.errors ∧
        out.savedCalls = [[]]) := by
  refine ⟨?_, ?_, ?_⟩
  · rintro bills rfl; rfl
  · rintro rfl; rfl
  · rintro m rfl
    refine ⟨rfl, ?_⟩
    intro d
    exact ⟨_, rfl, by simp [load_existing_bills, get_assembly_bills_from_leginfo], rfl⟩

/-- Witness for C7 at the three prior-state conditions. -/
theorem C7_loader_witness :
    load_existing_bills (PriorState.corrupt "bad json") =
      ([], [String.append "Error loading existing bills: " "bad json"]) ∧
    load_existing_bills PriorState.absent = ([], []) ∧
    load_existing_bills (PriorState.readable [sampleTracked]) = ([sampleTracked], []) :=
  ⟨((C7_loader (PriorState.corrupt "bad json")).2.2 "bad json" rfl).1,
    (C7_loader PriorState.absent).2.1 rfl,
    (C7_loader (PriorState.readable [sampleTracked])).1 [sampleTracked] rfl⟩

/-- C8: a source-adapter failure is caught and recorded as a non-fatal
scan error; the scan continues with the candidates returned before the
failure (none: the local `bills` list is still empty), so the run
completes with zero bills found, zero new bills, and the unchanged
collection persisted. -/
theorem C8_source_failure (p : PriorState) (e d : String) :
    get_assembly_bills_from_leginfo (Except.error e) =
      ([], [String.append "Error scraping legislative data: " e]) ∧
    ∃ out, scan_and_update p (Except.error e) d = Except.ok out ∧
      out.billsFound = 0 ∧ out.newBillsCount = 0 ∧
      String.append "Error scraping legislative data: " e ∈ out.errors ∧
      out.savedCalls = [(load_existing_bills p).1] := by
  refine ⟨rfl, ?_⟩
  have hm : mergeStep (load_existing_bills p).1
      (filter_relevant_bills (get_assembly_bills_from_leginfo (Except.error e)).1) d =
      Except.ok ((load_existing_bills p).1, 0) := rfl
  exact ⟨_, scan_and_update_eq_ok hm, rfl, rfl,
    by simp [get_assembly_bills_from_leginfo], rfl⟩

/-- C9 counterexample: `malformedDup` passes the relevance filter and is
missing the required title, author and summary fields, yet the run does
not abort: since its bill number "AB-1234" is already tracked, the
new-bill loop skips it before `convert_to_tracker_format` is reached,
and the scan completes normally. -/
theorem C9_counterexample :
    isRelevant malformedDup = true ∧
    malformedDup.title = none ∧ malformedDup.author = none ∧ malformedDup.summary = none ∧
    ∃ out, scan_and_update (PriorState.readable [sampleTracked])
        (Except.ok [malformedDup]) "2025-08-06" = Except.ok out ∧
      out.savedCalls = [[sampleTracked]] :=
  ⟨by decide, rfl, rfl, rfl, _, rfl, rfl⟩

/-- C9 (amended): a candidate that passes the relevance filter and is
missing a required field aborts the run with a fatal uncaught error
whenever its bill number is not already tracked (in particular the
malformed record is never admitted); a malformed relevant candidate
whose bill number is already tracked is skipped silently instead. -/
theorem C9_amended_abort {prior : PriorState} {fetch : Except String (List CandidateBill)}
    {today : String} {cand : CandidateBill}
    (hmem : cand ∈ (get_assembly_bills_from_leginfo fetch).1)
    (hrel : isRelevant cand = true)
    (hbad : cand.bill_number = none ∨ cand.title = none ∨ cand.author = none ∨
      cand.summary = none)
    (hnew : ∀ bn, cand.bill_number = some bn →
      bn ∉ (load_existing_bills prior).1.map TrackedBill.billNumber) :
    ∃ e, scan_and_update prior fetch today = Except.error e := by
  have hmemf : cand ∈ filter_relevant_bills (get_assembly_bills_from_leginfo fetch).1 :=
    List.mem_filter.mpr ⟨hmem, hrel⟩
  obtain ⟨e, he⟩ := @buildNewBills_not_ok
    ((load_existing_bills prior).1.map TrackedBill.billNumber) today
    (filter_relevant_bills (get_assembly_bills_from_leginfo fetch).1) cand hmemf hbad hnew
  have hm : mergeStep (load_existing_bills prior).1
      (filter_relevant_bills (get_assembly_bills_from_leginfo fetch).1) today =
      Except.error e := by
    unfold mergeStep
    rw [he]
  exact ⟨e, scan_and_update_eq_error hm⟩

/-- Witness for the amended C9: a relevant candidate with a fresh bill
number and no title aborts the scan. -/
theorem C9_amended_abort_witness :
    ∃ e, scan_and_update (PriorState.readable [sampleTracked])
        (Except.ok [malformedFresh]) "2025-08-07" = Except.error e :=
  @C9_amended_abort (PriorState.readable [sampleTracked]) (Except.ok [malformedFresh])
    "2025-08-07" malformedFresh (by decide) (by decide) (Or.inr (Or.inl rfl))
    (fun bn h => by
      obtain rfl : "AB-7777" = bn := Option.some.inj h
      decide)
